import Mathlib

/-!
Verification development for the `bench-rs` microbenchmark harness.

Shallow embedding of the core measurement code:
  * `src/lib.rs` — `Step`, `Stats`, `impl From<&Vec<Step>> for Stats`
  * `src/bencher.rs` — `Bencher::bench_once`, `Bencher::iter`,
    `Bencher::async_iter`, `format_duration`, and the constants
    `DEFAULT_DEADLINE_MS` and `MAX_ITERATIONS`.

Modelling conventions:
  * Machine integers (`usize`, `u128`) are `Nat`.  Rust `as usize` casts of
    `u128` values are modelled with an explicit `% 2 ^ 64` (the defined
    truncating semantics of `as`).  Additions are modelled exactly (the
    no-panic reading); Rust division by zero always panics, so a fallible
    computation that divides by a possibly-zero count is modelled with
    `Option`, `none` standing for the panic.
  * Wall-clock readings (`started.elapsed().as_nanos()`) and the per-call
    allocator deltas (`Region::change`), the per-call future timings and
    poll counts (`TimingFuture`) are external inputs; they are modelled by
    an environment `Env` of streams, consumed in program order: `clock` is
    indexed by the number of clock reads made so far, and `changes`,
    `times`, `polls` by the number of invocations of the benchmarked
    closure made so far.
  * `for _ in 0..n { ... break ... }` loops are structural recursion on the
    remaining iteration count.
  * The model carries ghost observers that do not influence control flow:
    `calls` (number of invocations of the closure), `batches` (outer-loop
    iterations that ran a batch) and `stop` (why a loop broke early).
-/

/-- `usize` width bound: casts `u128 as usize` truncate modulo this. -/
def USIZE : Nat := 2 ^ 64

/-- `MAX_ITERATIONS` from `bencher.rs`: the hard iteration ceiling. -/
def MAX_ITERATIONS : Nat := 2000

/-- `Duration::from_millis(DEFAULT_DEADLINE_MS).as_nanos()` with
`DEFAULT_DEADLINE_MS = 300`: the deadline, in nanoseconds. -/
def DEADLINE : Nat := 300000000

/-- `Step` from `lib.rs`: one reduced measurement. `time` is `u128` in the
source, the other fields are `usize`. -/
structure Step where
  time : Nat
  mem : Nat
  allocations : Nat
  leaked_bytes : Nat
  deriving Repr, DecidableEq

/-- `Stats` from `lib.rs`. All fields are `usize` in the source. -/
structure Stats where
  times_average : Nat
  times_min : Nat
  times_max : Nat
  mem_average : Nat
  mem_min : Nat
  mem_max : Nat
  allocations : Nat
  leaked_bytes : Nat
  deriving Repr, DecidableEq

/-- The arithmetic of `impl From<&Vec<Step>> for Stats` (`lib.rs` lines
54-63), for a sequence of positive length.  `times_iter.sum::<u128>() /
count as u128` is exact `u128` arithmetic followed by an `as usize`
truncation; `.min()/.max().unwrap_or_default()` is `Option.getD 0`;
the `mem`/`allocations`/`leaked_bytes` columns are `usize` throughout,
so only the three `times` fields carry the `% USIZE` cast. -/
def statsCompute (steps : List Step) : Stats :=
  let count := steps.length
  let times := steps.map (·.time)
  let mem := steps.map (·.mem)
  let a := steps.map (·.allocations)
  let l_bytes := steps.map (·.leaked_bytes)
  { times_average := (times.sum / count) % USIZE
    times_min := (times.min?.getD 0) % USIZE
    times_max := (times.max?.getD 0) % USIZE
    mem_average := mem.sum / count
    mem_min := mem.min?.getD 0
    mem_max := mem.max?.getD 0
    allocations := a.max?.getD 0
    leaked_bytes := l_bytes.max?.getD 0 }

/-- `Stats::from` (`lib.rs` lines 32-65).  The source computes
`sum / count` with no guard on `count = 0`; in Rust integer division by
zero panics, so the empty-sequence case is the panic, modelled as
`none`. -/
def statsFrom? (steps : List Step) : Option Stats :=
  if steps.length = 0 then none else some (statsCompute steps)

/-- The calibration formula shared by `iter` (`bencher.rs` line 121) and
`async_iter` (line 153): `self.n = (1_000_000 / single.max(1)).max(1)`.
The final `as usize` cast is the identity since the value is at most
`1_000_000`. -/
def calibrate (single : Nat) : Nat :=
  max (1000000 / max single 1) 1

/-- The `short = true` branch structure of `format_duration` (`bencher.rs`
lines 338-358): the displayed integer and the unit.  Every branch tests
`mean`, not `value`; the scaled displays are the source's integer
divisions.  (The `short = false` branches render the same unit with a
two-decimal float; the float text itself is not modelled.) -/
def format_duration_short (value mean : Nat) : Nat × String :=
  if mean < 1000 then (value, "ns")
  else if mean < 1000000 then (value / 1000, "µs")
  else if mean < 1000000000 then (value / 1000000, "ms")
  else (value / 1000000000, "s")

/-- Allocator deltas of one `reg.reset(); f(); reg.change()` window
(`stats_alloc::Stats` as used in `bencher.rs`). -/
structure Changes where
  allocations : Nat
  bytes_allocated : Nat
  bytes_deallocated : Nat
  deriving Repr, DecidableEq

/-- The external inputs of a run.  `clock k` is the value of the `k`-th
read of `started.elapsed().as_nanos()`; `changes k`, `times k` and
`polls k` are the allocator delta, the `TimingFuture` elapsed nanoseconds
and the `TimingFuture` poll count of the `k`-th invocation of the
benchmarked closure. -/
structure Env where
  clock : Nat → Nat
  changes : Nat → Changes
  times : Nat → Nat
  polls : Nat → Nat

/-- Ghost marker: why a loop broke before exhausting its iteration count.
`deadlineHit e` records the clock value `e` that was compared with the
deadline. -/
inductive StopInfo where
  | ceiling : StopInfo
  | deadlineHit : Nat → StopInfo
  deriving Repr, DecidableEq

/-- Accumulator of the `for _ in 0..n` loop inside `bench_once`
(`bencher.rs` lines 84-104), plus the stream cursors and the ghost
`stop`. -/
structure BatchState where
  allocations : Nat
  allocated : Nat
  leaked : Nat
  passed : Nat
  reads : Nat
  calls : Nat
  stop : Option StopInfo
  deriving Repr, DecidableEq

/-- One allocator window around a call of the closure: `reg.reset(); let
_output = black_box(f()); let changes = reg.change();` followed by the
three `max` updates and `passed += 1` (`bencher.rs` lines 93-103). -/
def batchBody (env : Env) (st : BatchState) : BatchState :=
  let c := env.changes st.calls
  { st with
    allocations := max st.allocations c.allocations
    allocated := max st.allocated c.bytes_allocated
    leaked := max st.leaked (c.bytes_allocated - c.bytes_deallocated)
    passed := st.passed + 1
    calls := st.calls + 1 }

/-- The `for _ in 0..n` loop of `bench_once`, with `fuel` remaining
iterations.  The break condition (`bencher.rs` lines 87-91) is
`self.passed + passed >= MAX_ITERATIONS || (n < 10 && self.passed +
passed > 3 && started.elapsed().as_nanos() >= deadline)`; by `&&`
short-circuiting, the clock is read only when `n < 10` and
`selfPassed + passed > 3`. -/
def benchOnceLoop (env : Env) (n deadline selfPassed : Nat) :
    Nat → BatchState → BatchState
  | 0, st => st
  | fuel + 1, st =>
    if MAX_ITERATIONS ≤ selfPassed + st.passed then
      { st with stop := some .ceiling }
    else if n < 10 ∧ 3 < selfPassed + st.passed then
      if deadline ≤ env.clock st.reads then
        { st with
            reads := st.reads + 1
            stop := some (.deadlineHit (env.clock st.reads)) }
      else
        benchOnceLoop env n deadline selfPassed fuel
          (batchBody env { st with reads := st.reads + 1 })
    else
      benchOnceLoop env n deadline selfPassed fuel (batchBody env st)

/-- Result of `bench_once`: the source's returned quintuple
`(elapsed - now, allocated_bytes, allocations, leaked_bytes, passed)`,
plus the stream cursors and the ghost `stop`. -/
structure BatchRes where
  time : Nat
  mem : Nat
  allocations : Nat
  leaked_bytes : Nat
  passed : Nat
  reads : Nat
  calls : Nat
  stop : Option StopInfo
  deriving Repr, DecidableEq

/-- `Bencher::bench_once` (`bencher.rs` lines 68-113), started with the
run-wide cumulative counter `selfPassed` and the stream cursors `reads`,
`calls`.  It reads the clock once for `now`, runs the loop, and reads
the clock again for the elapsed time (`started.elapsed().as_nanos() -
now`; the clock is monotone in the real program, so the `u128`
subtraction is `Nat` subtraction). -/
def benchOnce (env : Env) (n deadline selfPassed reads calls : Nat) :
    BatchRes :=
  let now := env.clock reads
  let st := benchOnceLoop env n deadline selfPassed n
    { allocations := 0, allocated := 0, leaked := 0, passed := 0
      reads := reads + 1, calls := calls, stop := none }
  { time := env.clock st.reads - now
    mem := st.allocated
    allocations := st.allocations
    leaked_bytes := st.leaked
    passed := st.passed
    reads := st.reads + 1
    calls := st.calls
    stop := st.stop }

/-- The mutable run state of the synchronous path of `Bencher` that the
claims observe, plus the stream cursors and ghost observers. -/
structure SyncState where
  steps : List Step
  passed : Nat
  n : Nat
  reads : Nat
  calls : Nat
  batches : Nat
  stop : Option StopInfo
  deriving Repr, DecidableEq

/-- After a batch: `if res.4 != 0 { self.steps.push(Step { time: res.0 /
res.4, mem: res.1, allocations: res.2, leaked_bytes: res.3 });
self.passed += res.4; }` (`bencher.rs` lines 131-139).  The ghost
`batches` counts outer iterations that ran a batch. -/
def pushStep (s : SyncState) (r : BatchRes) : SyncState :=
  if r.passed ≠ 0 then
    { s with
      steps := s.steps ++
        [⟨r.time / r.passed, r.mem, r.allocations, r.leaked_bytes⟩]
      passed := s.passed + r.passed
      reads := r.reads, calls := r.calls, batches := s.batches + 1 }
  else
    { s with reads := r.reads, calls := r.calls, batches := s.batches + 1 }

/-- The `for _ in 0..self.count` loop of `iter` (`bencher.rs` lines
123-140).  The break condition (lines 124-126) is `self.passed >=
MAX_ITERATIONS || self.passed > 3 && now.elapsed().as_nanos() >=
deadline`; by short-circuiting, the clock is read only when
`self.passed > 3`. -/
def iterLoop (env : Env) : Nat → SyncState → SyncState
  | 0, s => s
  | fuel + 1, s =>
    if MAX_ITERATIONS ≤ s.passed then
      { s with stop := some .ceiling }
    else if 3 < s.passed then
      if DEADLINE ≤ env.clock s.reads then
        { s with
            reads := s.reads + 1
            stop := some (.deadlineHit (env.clock s.reads)) }
      else
        iterLoop env fuel (pushStep s
          (benchOnce env s.n DEADLINE s.passed (s.reads + 1) s.calls))
    else
      iterLoop env fuel (pushStep s
        (benchOnce env s.n DEADLINE s.passed s.reads s.calls))

/-- The state of `iter` after calibration (`bencher.rs` lines 119-121):
`let single = self.bench_once(&mut f, 1, deadline, &now).0; self.n =
(1_000_000 / single.max(1)).max(1);`.  Of the calibration result only
field `.0` is used: `steps` and `passed` are untouched. -/
def iterCalibState (env : Env) : SyncState :=
  let r := benchOnce env 1 DEADLINE 0 0 0
  { steps := [], passed := 0, n := calibrate r.time
    reads := r.reads, calls := r.calls, batches := 0, stop := none }

/-- `Bencher::iter` (`bencher.rs` lines 115-141) on a freshly constructed
`Bencher` with target sample count `count`: calibration followed by the
sampling loop. -/
def iterRun (env : Env) (count : Nat) : SyncState :=
  iterLoop env count (iterCalibState env)

/-- The mutable run state of the asynchronous path of `Bencher` that the
claims observe: `steps`, `self.passed`, `self.n`, `self.poll`, the local
`polls` vector, the stream cursors and the ghost observers. -/
structure AsyncState where
  steps : List Step
  passed : Nat
  n : Nat
  poll : Nat
  pollsList : List Nat
  reads : Nat
  calls : Nat
  batches : Nat
  stop : Option StopInfo
  deriving Repr, DecidableEq

/-- Batch-local accumulators of one iteration of the outer async loop
(`bencher.rs` lines 163-168): `mtime`, `passed`, `allocations`,
`allocated_bytes`, `leaked_bytes`. -/
structure ABatch where
  mtime : Nat
  passed : Nat
  allocations : Nat
  allocated : Nat
  leaked : Nat
  deriving Repr, DecidableEq

/-- One repetition of the inner async loop (`bencher.rs` lines 176-193):
drive `TimingFuture::new(f())`, read the allocator delta, then `mtime +=
tf_time; passed += 1; polls.push(tf_poll); self.passed += 1;` and the
three `max` updates. -/
def asyncBody (env : Env) (s : AsyncState) (b : ABatch) :
    AsyncState × ABatch :=
  let t := env.times s.calls
  let p := env.polls s.calls
  let c := env.changes s.calls
  ({ s with
      passed := s.passed + 1
      pollsList := s.pollsList ++ [p]
      calls := s.calls + 1 },
   { mtime := b.mtime + t
     passed := b.passed + 1
     allocations := max b.allocations c.allocations
     allocated := max b.allocated c.bytes_allocated
     leaked := max b.leaked (c.bytes_allocated - c.bytes_deallocated) })

/-- The `for _ in 0..self.n` inner loop of `async_iter` (`bencher.rs`
lines 170-194).  The break condition (lines 171-175) is `self.passed +
passed >= MAX_ITERATIONS || self.passed > 3 &&
now.elapsed().as_nanos() >= deadline`; note that `self.passed` itself
advances during this loop (line 185). -/
def asyncInner (env : Env) : Nat → AsyncState → ABatch →
    AsyncState × ABatch
  | 0, s, b => (s, b)
  | fuel + 1, s, b =>
    if MAX_ITERATIONS ≤ s.passed + b.passed then (s, b)
    else if 3 < s.passed then
      if DEADLINE ≤ env.clock s.reads then ({ s with reads := s.reads + 1 }, b)
      else
        asyncInner env fuel
          (asyncBody env { s with reads := s.reads + 1 } b).1
          (asyncBody env { s with reads := s.reads + 1 } b).2
    else
      asyncInner env fuel (asyncBody env s b).1 (asyncBody env s b).2

/-- After an inner async loop: `if passed != 0 { self.steps.push(Step {
time: mtime / passed, mem: allocated_bytes, allocations, leaked_bytes })
}` (`bencher.rs` lines 196-203), with the ghost `batches` counting
outer iterations that ran a batch. -/
def asyncPushStep (s : AsyncState) (b : ABatch) : AsyncState :=
  if b.passed ≠ 0 then
    { s with
      steps := s.steps ++ [⟨b.mtime / b.passed, b.allocated,
        b.allocations, b.leaked⟩]
      batches := s.batches + 1 }
  else
    { s with batches := s.batches + 1 }

/-- The `for _ in 0..self.count` outer loop of `async_iter` (`bencher.rs`
lines 157-204).  The break condition (lines 158-162) is identical to the
synchronous one: `self.passed >= MAX_ITERATIONS || self.passed > 3 &&
now.elapsed().as_nanos() >= deadline`. -/
def asyncLoop (env : Env) : Nat → AsyncState → AsyncState
  | 0, s => s
  | fuel + 1, s =>
    if MAX_ITERATIONS ≤ s.passed then
      { s with stop := some .ceiling }
    else if 3 < s.passed then
      if DEADLINE ≤ env.clock s.reads then
        { s with
            reads := s.reads + 1
            stop := some (.deadlineHit (env.clock s.reads)) }
      else
        asyncLoop env fuel (asyncPushStep
          (asyncInner env s.n { s with reads := s.reads + 1 } ⟨0, 0, 0, 0, 0⟩).1
          (asyncInner env s.n { s with reads := s.reads + 1 } ⟨0, 0, 0, 0, 0⟩).2)
    else
      asyncLoop env fuel (asyncPushStep
        (asyncInner env s.n s ⟨0, 0, 0, 0, 0⟩).1
        (asyncInner env s.n s ⟨0, 0, 0, 0, 0⟩).2)

/-- The state of `async_iter` after calibration (`bencher.rs` lines
151-153): `let single = TimingFuture::new(f()).await.elapsed_time
.as_nanos(); self.n = (1_000_000 / single.max(1)).max(1);`.  The
calibration call consumes closure invocation `0`; its poll count is
discarded and `steps`, `passed`, `poll` are untouched. -/
def asyncCalibState (env : Env) : AsyncState :=
  { steps := [], passed := 0, n := calibrate (env.times 0), poll := 0
    pollsList := [], reads := 0, calls := 1, batches := 0, stop := none }

/-- `Bencher::async_iter` (`bencher.rs` lines 143-210) on a freshly
constructed `Bencher` with target sample count `count`: calibration, the
outer loop, then `if !polls.is_empty() { self.poll =
polls.iter().sum::<usize>() / polls.len(); }` (lines 206-208). -/
def asyncRun (env : Env) (count : Nat) : AsyncState :=
  let s := asyncLoop env count (asyncCalibState env)
  if s.pollsList ≠ [] then
    { s with poll := s.pollsList.sum / s.pollsList.length }
  else s

/-! ### List helper lemmas for the aggregator -/

lemma max?_getD_mem {l : List Nat} (h : l ≠ []) : l.max?.getD 0 ∈ l := by
  obtain ⟨a, ha⟩ := Option.isSome_iff_exists.1 (List.isSome_max?_of_mem
    (List.exists_mem_of_ne_nil l h).choose_spec)
  rw [ha]
  exact (List.max?_eq_some_iff'.1 ha).1

lemma min?_getD_mem {l : List Nat} (h : l ≠ []) : l.min?.getD 0 ∈ l := by
  obtain ⟨a, ha⟩ := Option.isSome_iff_exists.1 (List.isSome_min?_of_mem
    (List.exists_mem_of_ne_nil l h).choose_spec)
  rw [ha]
  exact (List.min?_eq_some_iff'.1 ha).1

lemma avg_le_max?_getD {l : List Nat} (h : l ≠ []) :
    l.sum / l.length ≤ l.max?.getD 0 := by
  have hlen : 0 < l.length := List.length_pos.2 h
  have hsum : l.sum ≤ l.length * l.max?.getD 0 := by
    have := List.sum_le_card_nsmul l (l.max?.getD 0)
      (fun x hx => List.le_max?_getD_of_mem hx)
    simpa [smul_eq_mul] using this
  calc l.sum / l.length ≤ l.length * l.max?.getD 0 / l.length :=
        Nat.div_le_div_right hsum
    _ = l.max?.getD 0 := Nat.mul_div_cancel_left _ hlen

lemma min?_getD_le_avg {l : List Nat} (h : l ≠ []) :
    l.min?.getD 0 ≤ l.sum / l.length := by
  have hlen : 0 < l.length := List.length_pos.2 h
  have hsum : l.length * l.min?.getD 0 ≤ l.sum := by
    have := List.card_nsmul_le_sum l (l.min?.getD 0)
      (fun x hx => List.min?_getD_le_of_mem hx)
    simpa [smul_eq_mul] using this
  exact (Nat.le_div_iff_mul_le hlen).2 (by rw [Nat.mul_comm]; exact hsum)

/-! ### C1: the empty-sequence case of `Stats::from` -/

/-- C1: computing `Stats` from an empty sample sequence is NOT guarded:
`Stats::from` evaluates `sum / count` with `count = 0`, which panics in
Rust (modelled as `none`).  The claim asserts an explicit guard; the
spec itself records the unguarded division of the original as a latent
defect (§7), so this is a bug in the code relative to the claimed
behaviour. -/
theorem statsFrom_empty_panics : statsFrom? [] = none := rfl

/-! ### C6: min ≤ average ≤ max -/

/-- C6 counterexample: the claim fails as stated because `Stats::from`
truncates the `u128` time columns with `as usize`.  For the two-sample
sequence with times `2^64` and `1`, `times_average = 2^63` but
`times_max = 2^64 as usize = 0`. -/
theorem stats_times_avg_gt_max_cex :
    ¬ ((statsCompute [⟨2 ^ 64, 0, 0, 0⟩, ⟨1, 0, 0, 0⟩]).times_average ≤
       (statsCompute [⟨2 ^ 64, 0, 0, 0⟩, ⟨1, 0, 0, 0⟩]).times_max) := by
  decide

/-- C6 amended: for every non-empty sample sequence whose per-sample
times fit in `usize` (so the `as usize` casts in `Stats::from` are
lossless), `times_min ≤ times_average ≤ times_max`, and the memory
analogue holds with no side condition (the memory column is `usize`
throughout, with no cast). -/
theorem stats_min_avg_max (steps : List Step) (hne : steps ≠ [])
    (ht : ∀ s ∈ steps, s.time < USIZE) :
    (statsCompute steps).times_min ≤ (statsCompute steps).times_average ∧
    (statsCompute steps).times_average ≤ (statsCompute steps).times_max ∧
    (statsCompute steps).mem_min ≤ (statsCompute steps).mem_average ∧
    (statsCompute steps).mem_average ≤ (statsCompute steps).mem_max := by
  have hmapt : steps.map (·.time) ≠ [] := by
    simpa using hne
  have hmapm : steps.map (·.mem) ≠ [] := by
    simpa using hne
  have hlen : (steps.map (·.time)).length = steps.length := steps.length_map _
  have hmax_lt : (steps.map (·.time)).max?.getD 0 < USIZE := by
    obtain ⟨s, hs, hst⟩ := List.mem_map.1 (max?_getD_mem hmapt)
    exact hst ▸ ht s hs
  have hmin_lt : (steps.map (·.time)).min?.getD 0 < USIZE := by
    obtain ⟨s, hs, hst⟩ := List.mem_map.1 (min?_getD_mem hmapt)
    exact hst ▸ ht s hs
  have havg_le : (steps.map (·.time)).sum / (steps.map (·.time)).length ≤
      (steps.map (·.time)).max?.getD 0 := avg_le_max?_getD hmapt
  have havg_lt : (steps.map (·.time)).sum / (steps.map (·.time)).length <
      USIZE := lt_of_le_of_lt havg_le hmax_lt
  have hmin_avg := min?_getD_le_avg hmapt
  have hmin_avg_m := min?_getD_le_avg hmapm
  have havg_max_m := avg_le_max?_getD hmapm
  simp only [statsCompute, hlen, steps.length_map (·.mem)] at *
  refine ⟨?_, ?_, hmin_avg_m, havg_max_m⟩
  · rw [Nat.mod_eq_of_lt hmin_lt, Nat.mod_eq_of_lt havg_lt]
    exact hmin_avg
  · rw [Nat.mod_eq_of_lt hmax_lt, Nat.mod_eq_of_lt havg_lt]
    exact havg_le

/-- C6 amended, witness: the sequence `[⟨5, 3, 0, 0⟩, ⟨7, 9, 0, 0⟩]`. -/
theorem stats_min_avg_max_witness :
    ([⟨5, 3, 0, 0⟩, ⟨7, 9, 0, 0⟩] : List Step) ≠ [] ∧
    (statsCompute [⟨5, 3, 0, 0⟩, ⟨7, 9, 0, 0⟩]).times_min ≤
      (statsCompute [⟨5, 3, 0, 0⟩, ⟨7, 9, 0, 0⟩]).times_average ∧
    (statsCompute [⟨5, 3, 0, 0⟩, ⟨7, 9, 0, 0⟩]).times_average ≤
      (statsCompute [⟨5, 3, 0, 0⟩, ⟨7, 9, 0, 0⟩]).times_max ∧
    (statsCompute [⟨5, 3, 0, 0⟩, ⟨7, 9, 0, 0⟩]).mem_min ≤
      (statsCompute [⟨5, 3, 0, 0⟩, ⟨7, 9, 0, 0⟩]).mem_average ∧
    (statsCompute [⟨5, 3, 0, 0⟩, ⟨7, 9, 0, 0⟩]).mem_average ≤
      (statsCompute [⟨5, 3, 0, 0⟩, ⟨7, 9, 0, 0⟩]).mem_max :=
  ⟨by decide, stats_min_avg_max [⟨5, 3, 0, 0⟩, ⟨7, 9, 0, 0⟩]
    (by decide) (by decide)⟩

/-! ### C7: allocations and leaked_bytes are maxima -/

/-- C7: for every non-empty sample sequence, the `allocations` and
`leaked_bytes` fields of the resulting `Stats` are the maximum of the
corresponding per-sample values: each is itself one of the per-sample
values and bounds all of them. -/
theorem stats_alloc_leaked_are_max (steps : List Step) (hne : steps ≠ []) :
    ((statsCompute steps).allocations ∈ steps.map (·.allocations) ∧
      ∀ s ∈ steps, s.allocations ≤ (statsCompute steps).allocations) ∧
    ((statsCompute steps).leaked_bytes ∈ steps.map (·.leaked_bytes) ∧
      ∀ s ∈ steps, s.leaked_bytes ≤ (statsCompute steps).leaked_bytes) := by
  have hmapa : steps.map (·.allocations) ≠ [] := by simpa using hne
  have hmapl : steps.map (·.leaked_bytes) ≠ [] := by simpa using hne
  refine ⟨⟨max?_getD_mem hmapa, fun s hs => ?_⟩,
    ⟨max?_getD_mem hmapl, fun s hs => ?_⟩⟩
  · exact List.le_max?_getD_of_mem (List.mem_map_of_mem _ hs)
  · exact List.le_max?_getD_of_mem (List.mem_map_of_mem _ hs)

/-- C7 witness: the sequence `[⟨1, 1, 4, 9⟩, ⟨2, 2, 6, 3⟩]`, whose
`allocations` maximum is `6` and `leaked_bytes` maximum is `9`. -/
theorem stats_alloc_leaked_are_max_witness :
    ([⟨1, 1, 4, 9⟩, ⟨2, 2, 6, 3⟩] : List Step) ≠ [] ∧
    ((statsCompute [⟨1, 1, 4, 9⟩, ⟨2, 2, 6, 3⟩]).allocations ∈
        ([⟨1, 1, 4, 9⟩, ⟨2, 2, 6, 3⟩] : List Step).map (·.allocations) ∧
      ∀ s ∈ ([⟨1, 1, 4, 9⟩, ⟨2, 2, 6, 3⟩] : List Step), s.allocations ≤
        (statsCompute [⟨1, 1, 4, 9⟩, ⟨2, 2, 6, 3⟩]).allocations) ∧
    ((statsCompute [⟨1, 1, 4, 9⟩, ⟨2, 2, 6, 3⟩]).leaked_bytes ∈
        ([⟨1, 1, 4, 9⟩, ⟨2, 2, 6, 3⟩] : List Step).map (·.leaked_bytes) ∧
      ∀ s ∈ ([⟨1, 1, 4, 9⟩, ⟨2, 2, 6, 3⟩] : List Step), s.leaked_bytes ≤
        (statsCompute [⟨1, 1, 4, 9⟩, ⟨2, 2, 6, 3⟩]).leaked_bytes) :=
  ⟨by decide, stats_alloc_leaked_are_max [⟨1, 1, 4, 9⟩, ⟨2, 2, 6, 3⟩]
    (by decide)⟩

/-! ### C9: duration formatting -/

/-- C9 counterexample: `format_duration` selects the unit from its `mean`
parameter, not from the value being rendered.  The spread rendering in
`default_format` passes `value = 500`, `mean = 2_000_000`: the result is
`"ms"`, not the `"ns"` the claim requires for a value `< 1000`. -/
theorem format_duration_not_by_value_cex :
    (format_duration_short 500 2000000).2 = "ms" ∧
    (format_duration_short 500 2000000).2 ≠ "ns" := by
  constructor <;> decide

/-- C9 amended: the unit is a pure function of the magnitude of the
`mean` parameter (the run's average time), with the unit switching
exactly between `999` and `1000` and between `999_999` and `1_000_000`;
when the rendered value is the average itself (as in the primary
rendering) this agrees with the claim. -/
theorem format_duration_unit_of_mean (value mean : Nat) :
    (mean < 1000 → (format_duration_short value mean).2 = "ns") ∧
    (1000 ≤ mean → mean < 1000000 →
      (format_duration_short value mean).2 = "µs") ∧
    (1000000 ≤ mean → mean < 1000000000 →
      (format_duration_short value mean).2 = "ms") ∧
    (1000000000 ≤ mean → (format_duration_short value mean).2 = "s") := by
  unfold format_duration_short
  refine ⟨fun h => ?_, fun h1 h2 => ?_, fun h1 h2 => ?_, fun h => ?_⟩ <;>
    split_ifs <;> first | rfl | omega

/-- C9 amended, witness: the boundary values `999 / 1000` and
`999_999 / 1_000_000`, rendered at `value = mean`. -/
theorem format_duration_unit_witness :
    (999 < 1000 ∧ (format_duration_short 999 999).2 = "ns") ∧
    (1000 ≤ 1000 ∧ (format_duration_short 1000 1000).2 = "µs") ∧
    (999999 < 1000000 ∧ (format_duration_short 999999 999999).2 = "µs") ∧
    (1000000 ≤ 1000000 ∧ (format_duration_short 7 1000000).2 = "ms") ∧
    (1000000000 ≤ 1000000000 ∧
      (format_duration_short 7 1000000000).2 = "s") :=
  ⟨⟨by decide, (format_duration_unit_of_mean 999 999).1 (by decide)⟩,
   ⟨by decide, (format_duration_unit_of_mean 1000 1000).2.1 (by decide)
      (by decide)⟩,
   ⟨by decide, (format_duration_unit_of_mean 999999 999999).2.1 (by decide)
      (by decide)⟩,
   ⟨by decide, (format_duration_unit_of_mean 7 1000000).2.2.1 (by decide)
      (by decide)⟩,
   ⟨by decide, (format_duration_unit_of_mean 7 1000000000).2.2.2
      (by decide)⟩⟩

/-! ### Invariant lemmas for `bench_once` -/

lemma benchOnceLoop_passed_le (env : Env) (n deadline selfPassed : Nat)
    (fuel : Nat) :
    ∀ st : BatchState, selfPassed + st.passed ≤ MAX_ITERATIONS →
      selfPassed + (benchOnceLoop env n deadline selfPassed fuel st).passed ≤
        MAX_ITERATIONS := by
  induction fuel with
  | zero => intro st h; simpa [benchOnceLoop] using h
  | succ fuel ih =>
    intro st h
    unfold benchOnceLoop
    split_ifs with h1 h2 h3
    · simpa using h
    · simpa using h
    · exact ih _ (by simp only [batchBody]; omega)
    · exact ih _ (by simp only [batchBody]; omega)

lemma benchOnce_passed_le (env : Env) (n deadline selfPassed reads calls : Nat)
    (h : selfPassed ≤ MAX_ITERATIONS) :
    selfPassed + (benchOnce env n deadline selfPassed reads calls).passed ≤
      MAX_ITERATIONS := by
  unfold benchOnce
  exact benchOnceLoop_passed_le env n deadline selfPassed n _ (by simpa using h)

lemma benchOnceLoop_calls (env : Env) (n deadline selfPassed : Nat)
    (fuel : Nat) :
    ∀ st : BatchState,
      (benchOnceLoop env n deadline selfPassed fuel st).calls + st.passed =
        st.calls + (benchOnceLoop env n deadline selfPassed fuel st).passed := by
  induction fuel with
  | zero => intro st; simp [benchOnceLoop]
  | succ fuel ih =>
    intro st
    unfold benchOnceLoop
    split_ifs with h1 h2 h3
    · simp
    · simp
    · have := ih (batchBody env { st with reads := st.reads + 1 })
      simp only [batchBody] at this ⊢
      omega
    · have := ih (batchBody env st)
      simp only [batchBody] at this ⊢
      omega

lemma benchOnce_calls (env : Env) (n deadline selfPassed reads calls : Nat) :
    (benchOnce env n deadline selfPassed reads calls).calls =
      calls + (benchOnce env n deadline selfPassed reads calls).passed := by
  unfold benchOnce
  have := benchOnceLoop_calls env n deadline selfPassed n
    { allocations := 0, allocated := 0, leaked := 0, passed := 0
      reads := reads + 1, calls := calls, stop := none }
  simp only at this ⊢
  omega

lemma benchOnceLoop_stop (env : Env) (n deadline selfPassed : Nat)
    (fuel : Nat) :
    ∀ st : BatchState, st.stop = none →
      (benchOnceLoop env n deadline selfPassed fuel st).passed =
          st.passed + fuel ∨
      ((benchOnceLoop env n deadline selfPassed fuel st).stop =
          some .ceiling ∧
        MAX_ITERATIONS ≤ selfPassed +
          (benchOnceLoop env n deadline selfPassed fuel st).passed) ∨
      (∃ e, (benchOnceLoop env n deadline selfPassed fuel st).stop =
          some (.deadlineHit e) ∧ n < 10 ∧
        3 < selfPassed +
          (benchOnceLoop env n deadline selfPassed fuel st).passed ∧
        deadline ≤ e) := by
  induction fuel with
  | zero => intro st _; left; simp [benchOnceLoop]
  | succ fuel ih =>
    intro st hst
    unfold benchOnceLoop
    split_ifs with h1 h2 h3
    · right; left; exact ⟨rfl, by simpa using h1⟩
    · right; right
      exact ⟨env.clock st.reads, rfl, h2.1, by simpa using h2.2, h3⟩
    · rcases ih (batchBody env { st with reads := st.reads + 1 })
        (by simp [batchBody, hst]) with h | h | h
      · left; simp only [batchBody] at h ⊢; omega
      · right; left; exact h
      · right; right; exact h
    · rcases ih (batchBody env st) (by simp [batchBody, hst]) with h | h | h
      · left; simp only [batchBody] at h ⊢; omega
      · right; left; exact h
      · right; right; exact h

lemma benchOnce_stop (env : Env) (n deadline selfPassed reads calls : Nat) :
    (benchOnce env n deadline selfPassed reads calls).passed = n ∨
    ((benchOnce env n deadline selfPassed reads calls).stop = some .ceiling ∧
      MAX_ITERATIONS ≤ selfPassed +
        (benchOnce env n deadline selfPassed reads calls).passed) ∨
    (∃ e, (benchOnce env n deadline selfPassed reads calls).stop =
        some (.deadlineHit e) ∧ n < 10 ∧
      3 < selfPassed + (benchOnce env n deadline selfPassed reads calls).passed ∧
      deadline ≤ e) := by
  unfold benchOnce
  have := benchOnceLoop_stop env n deadline selfPassed n
    { allocations := 0, allocated := 0, leaked := 0, passed := 0
      reads := reads + 1, calls := calls, stop := none } rfl
  simpa using this

/-! ### Invariant lemmas for the synchronous sampling loop -/

lemma pushStep_passed (s : SyncState) (r : BatchRes) :
    (pushStep s r).passed = s.passed + r.passed := by
  unfold pushStep
  split_ifs with h
  · rfl
  · simp only [ne_eq, Decidable.not_not] at h
    simp [h]

lemma pushStep_len (s : SyncState) (r : BatchRes) :
    (pushStep s r).steps.length ≤ s.steps.length + 1 := by
  unfold pushStep
  split_ifs <;> simp

lemma pushStep_n (s : SyncState) (r : BatchRes) : (pushStep s r).n = s.n := by
  unfold pushStep
  split_ifs <;> rfl

lemma pushStep_stop (s : SyncState) (r : BatchRes) :
    (pushStep s r).stop = s.stop := by
  unfold pushStep
  split_ifs <;> rfl

lemma pushStep_batches (s : SyncState) (r : BatchRes) :
    (pushStep s r).batches = s.batches + 1 := by
  unfold pushStep
  split_ifs <;> rfl

lemma pushStep_calls (s : SyncState) (r : BatchRes) :
    (pushStep s r).calls = r.calls := by
  unfold pushStep
  split_ifs <;> rfl

lemma iterLoop_bounds (env : Env) (fuel : Nat) :
    ∀ s : SyncState, s.passed ≤ MAX_ITERATIONS →
      (iterLoop env fuel s).passed ≤ MAX_ITERATIONS ∧
      (iterLoop env fuel s).steps.length ≤ s.steps.length + fuel := by
  induction fuel with
  | zero => intro s h; exact ⟨by simpa [iterLoop] using h, by simp [iterLoop]⟩
  | succ fuel ih =>
    intro s h
    unfold iterLoop
    split_ifs with h1 h2 h3
    · exact ⟨by simpa using h, by simp⟩
    · exact ⟨by simpa using h, by simp⟩
    · obtain ⟨hp, hl⟩ := ih
        (pushStep s (benchOnce env s.n DEADLINE s.passed (s.reads + 1) s.calls))
        (by
          rw [pushStep_passed]
          exact benchOnce_passed_le env s.n DEADLINE s.passed (s.reads + 1)
            s.calls h)
      refine ⟨hp, le_trans hl ?_⟩
      have := pushStep_len s
        (benchOnce env s.n DEADLINE s.passed (s.reads + 1) s.calls)
      omega
    · obtain ⟨hp, hl⟩ := ih
        (pushStep s (benchOnce env s.n DEADLINE s.passed s.reads s.calls))
        (by
          rw [pushStep_passed]
          exact benchOnce_passed_le env s.n DEADLINE s.passed s.reads s.calls h)
      refine ⟨hp, le_trans hl ?_⟩
      have := pushStep_len s
        (benchOnce env s.n DEADLINE s.passed s.reads s.calls)
      omega

lemma iterLoop_n (env : Env) (fuel : Nat) :
    ∀ s : SyncState, (iterLoop env fuel s).n = s.n := by
  induction fuel with
  | zero => intro s; simp [iterLoop]
  | succ fuel ih =>
    intro s
    unfold iterLoop
    split_ifs with h1 h2 h3
    · rfl
    · rfl
    · rw [ih, pushStep_n]
    · rw [ih, pushStep_n]

lemma iterLoop_calls (env : Env) (fuel : Nat) :
    ∀ s : SyncState, s.calls = s.passed + 1 →
      (iterLoop env fuel s).calls = (iterLoop env fuel s).passed + 1 := by
  induction fuel with
  | zero => intro s h; simpa [iterLoop] using h
  | succ fuel ih =>
    intro s h
    unfold iterLoop
    split_ifs with h1 h2 h3
    · simpa using h
    · simpa using h
    · refine ih _ ?_
      rw [pushStep_calls, pushStep_passed, benchOnce_calls]
      omega
    · refine ih _ ?_
      rw [pushStep_calls, pushStep_passed, benchOnce_calls]
      omega

lemma iterLoop_stop (env : Env) (fuel : Nat) :
    ∀ s : SyncState, s.stop = none →
      (iterLoop env fuel s).batches = s.batches + fuel ∨
      ((iterLoop env fuel s).stop = some .ceiling ∧
        MAX_ITERATIONS ≤ (iterLoop env fuel s).passed) ∨
      (∃ e, (iterLoop env fuel s).stop = some (.deadlineHit e) ∧
        3 < (iterLoop env fuel s).passed ∧ DEADLINE ≤ e) := by
  induction fuel with
  | zero => intro s _; left; simp [iterLoop]
  | succ fuel ih =>
    intro s hs
    unfold iterLoop
    split_ifs with h1 h2 h3
    · right; left; exact ⟨rfl, by simpa using h1⟩
    · right; right; exact ⟨env.clock s.reads, rfl, by simpa using h2, h3⟩
    · rcases ih (pushStep s
          (benchOnce env s.n DEADLINE s.passed (s.reads + 1) s.calls))
        (by rw [pushStep_stop]; exact hs) with h | h | h
      · left; rw [h, pushStep_batches]; omega
      · right; left; exact h
      · right; right; exact h
    · rcases ih (pushStep s
          (benchOnce env s.n DEADLINE s.passed s.reads s.calls))
        (by rw [pushStep_stop]; exact hs) with h | h | h
      · left; rw [h, pushStep_batches]; omega
      · right; left; exact h
      · right; right; exact h

/-- The state after the synchronous calibration, computed symbolically:
the calibration batch makes exactly one call and two clock reads, and
`single` is the difference of the two readings. -/
lemma iterCalibState_eq (env : Env) :
    iterCalibState env =
      { steps := [], passed := 0
        n := calibrate (env.clock 1 - env.clock 0)
        reads := 2, calls := 1, batches := 0, stop := none } := by
  have h : benchOnceLoop env 1 DEADLINE 0 1
      { allocations := 0, allocated := 0, leaked := 0, passed := 0
        reads := 1, calls := 0, stop := none } =
      batchBody env
        { allocations := 0, allocated := 0, leaked := 0, passed := 0
          reads := 1, calls := 0, stop := none } := by
    unfold benchOnceLoop
    norm_num [MAX_ITERATIONS]
    rfl
  unfold iterCalibState benchOnce
  simp [h, batchBody]

/-! ### Invariant lemmas for the asynchronous sampling loop -/

lemma asyncBody_fst (env : Env) (s : AsyncState) (b : ABatch) :
    (asyncBody env s b).1 =
      { s with
          passed := s.passed + 1
          pollsList := s.pollsList ++ [env.polls s.calls]
          calls := s.calls + 1 } := by
  simp [asyncBody]

lemma asyncInner_frame (env : Env) (fuel : Nat) :
    ∀ (s : AsyncState) (b : ABatch),
      (asyncInner env fuel s b).1.steps = s.steps ∧
      (asyncInner env fuel s b).1.n = s.n ∧
      (asyncInner env fuel s b).1.batches = s.batches ∧
      (asyncInner env fuel s b).1.stop = s.stop ∧
      (asyncInner env fuel s b).1.poll = s.poll := by
  induction fuel with
  | zero => intro s b; simp [asyncInner]
  | succ fuel ih =>
    intro s b
    unfold asyncInner
    split_ifs with h1 h2 h3
    · simp
    · simp
    · have := ih (asyncBody env { s with reads := s.reads + 1 } b).1
        (asyncBody env { s with reads := s.reads + 1 } b).2
      rw [asyncBody_fst] at this
      simpa using this
    · have := ih (asyncBody env s b).1 (asyncBody env s b).2
      rw [asyncBody_fst] at this
      simpa using this

lemma asyncInner_passed_le (env : Env) (fuel : Nat) :
    ∀ (s : AsyncState) (b : ABatch), s.passed ≤ MAX_ITERATIONS →
      (asyncInner env fuel s b).1.passed ≤ MAX_ITERATIONS := by
  induction fuel with
  | zero => intro s b h; simpa [asyncInner] using h
  | succ fuel ih =>
    intro s b h
    unfold asyncInner
    split_ifs with h1 h2 h3
    · simpa using h
    · simpa using h
    · refine ih _ _ ?_
      rw [asyncBody_fst]
      simp only
      omega
    · refine ih _ _ ?_
      rw [asyncBody_fst]
      simp only
      omega

lemma asyncInner_polls (env : Env) (fuel : Nat) :
    ∀ (s : AsyncState) (b : ABatch),
      s.calls = s.passed + 1 →
      s.pollsList = (List.range s.passed).map (fun i => env.polls (i + 1)) →
      (asyncInner env fuel s b).1.calls =
          (asyncInner env fuel s b).1.passed + 1 ∧
      (asyncInner env fuel s b).1.pollsList =
        (List.range (asyncInner env fuel s b).1.passed).map
          (fun i => env.polls (i + 1)) := by
  induction fuel with
  | zero => intro s b h1 h2; simp [asyncInner]; exact ⟨h1, h2⟩
  | succ fuel ih =>
    intro s b hc hp
    unfold asyncInner
    split_ifs with h1 h2 h3
    · exact ⟨by simpa using hc, by simpa using hp⟩
    · exact ⟨by simpa using hc, by simpa using hp⟩
    · refine ih _ _ ?_ ?_ <;> rw [asyncBody_fst] <;> simp only
      · omega
      · rw [List.range_succ, List.map_append, ← hp, hc]
        simp
    · refine ih _ _ ?_ ?_ <;> rw [asyncBody_fst] <;> simp only
      · omega
      · rw [List.range_succ, List.map_append, ← hp, hc]
        simp

lemma asyncPushStep_frame (s : AsyncState) (b : ABatch) :
    (asyncPushStep s b).passed = s.passed ∧
    (asyncPushStep s b).calls = s.calls ∧
    (asyncPushStep s b).pollsList = s.pollsList ∧
    (asyncPushStep s b).n = s.n ∧
    (asyncPushStep s b).poll = s.poll ∧
    (asyncPushStep s b).stop = s.stop ∧
    (asyncPushStep s b).batches = s.batches + 1 ∧
    (asyncPushStep s b).steps.length ≤ s.steps.length + 1 := by
  unfold asyncPushStep
  split_ifs <;> simp

lemma asyncLoop_bounds (env : Env) (fuel : Nat) :
    ∀ s : AsyncState, s.passed ≤ MAX_ITERATIONS →
      (asyncLoop env fuel s).passed ≤ MAX_ITERATIONS ∧
      (asyncLoop env fuel s).steps.length ≤ s.steps.length + fuel := by
  induction fuel with
  | zero => intro s h; exact ⟨by simpa [asyncLoop] using h, by simp [asyncLoop]⟩
  | succ fuel ih =>
    intro s h
    unfold asyncLoop
    split_ifs with h1 h2 h3
    · exact ⟨by simpa using h, by simp⟩
    · exact ⟨by simpa using h, by simp⟩
    · obtain ⟨f1, f2, f3, f4, f5, f6, f7, f8⟩ := asyncPushStep_frame
        (asyncInner env s.n { s with reads := s.reads + 1 } ⟨0, 0, 0, 0, 0⟩).1
        (asyncInner env s.n { s with reads := s.reads + 1 } ⟨0, 0, 0, 0, 0⟩).2
      obtain ⟨hp, hl⟩ := ih _ (by
        rw [f1]
        exact asyncInner_passed_le env s.n _ _ (by simpa using h))
      refine ⟨hp, le_trans hl ?_⟩
      have hsteps := congrArg List.length (asyncInner_frame env s.n
        { s with reads := s.reads + 1 } ⟨0, 0, 0, 0, 0⟩).1
      simp only at hsteps
      omega
    · obtain ⟨f1, f2, f3, f4, f5, f6, f7, f8⟩ := asyncPushStep_frame
        (asyncInner env s.n s ⟨0, 0, 0, 0, 0⟩).1
        (asyncInner env s.n s ⟨0, 0, 0, 0, 0⟩).2
      obtain ⟨hp, hl⟩ := ih _ (by
        rw [f1]
        exact asyncInner_passed_le env s.n _ _ h)
      refine ⟨hp, le_trans hl ?_⟩
      have hsteps := congrArg List.length
        (asyncInner_frame env s.n s ⟨0, 0, 0, 0, 0⟩).1
      omega

lemma asyncLoop_n (env : Env) (fuel : Nat) :
    ∀ s : AsyncState, (asyncLoop env fuel s).n = s.n := by
  induction fuel with
  | zero => intro s; simp [asyncLoop]
  | succ fuel ih =>
    intro s
    unfold asyncLoop
    split_ifs with h1 h2 h3
    · rfl
    · rfl
    · rw [ih, (asyncPushStep_frame _ _).2.2.2.1,
        (asyncInner_frame env s.n { s with reads := s.reads + 1 }
          ⟨0, 0, 0, 0, 0⟩).2.1]
    · rw [ih, (asyncPushStep_frame _ _).2.2.2.1,
        (asyncInner_frame env s.n s ⟨0, 0, 0, 0, 0⟩).2.1]

lemma asyncLoop_poll (env : Env) (fuel : Nat) :
    ∀ s : AsyncState, (asyncLoop env fuel s).poll = s.poll := by
  induction fuel with
  | zero => intro s; simp [asyncLoop]
  | succ fuel ih =>
    intro s
    unfold asyncLoop
    split_ifs with h1 h2 h3
    · rfl
    · rfl
    · rw [ih, (asyncPushStep_frame _ _).2.2.2.2.1,
        (asyncInner_frame env s.n { s with reads := s.reads + 1 }
          ⟨0, 0, 0, 0, 0⟩).2.2.2.2]
    · rw [ih, (asyncPushStep_frame _ _).2.2.2.2.1,
        (asyncInner_frame env s.n s ⟨0, 0, 0, 0, 0⟩).2.2.2.2]

lemma asyncLoop_polls (env : Env) (fuel : Nat) :
    ∀ s : AsyncState,
      s.calls = s.passed + 1 →
      s.pollsList = (List.range s.passed).map (fun i => env.polls (i + 1)) →
      (asyncLoop env fuel s).calls = (asyncLoop env fuel s).passed + 1 ∧
      (asyncLoop env fuel s).pollsList =
        (List.range (asyncLoop env fuel s).passed).map
          (fun i => env.polls (i + 1)) := by
  induction fuel with
  | zero => intro s hc hp; simp [asyncLoop]; exact ⟨hc, hp⟩
  | succ fuel ih =>
    intro s hc hp
    unfold asyncLoop
    split_ifs with h1 h2 h3
    · exact ⟨by simpa using hc, by simpa using hp⟩
    · exact ⟨by simpa using hc, by simpa using hp⟩
    · obtain ⟨hc', hp'⟩ := asyncInner_polls env s.n
        { s with reads := s.reads + 1 } ⟨0, 0, 0, 0, 0⟩
        (by simpa using hc) (by simpa using hp)
      obtain ⟨f1, f2, f3, _⟩ := asyncPushStep_frame
        (asyncInner env s.n { s with reads := s.reads + 1 } ⟨0, 0, 0, 0, 0⟩).1
        (asyncInner env s.n { s with reads := s.reads + 1 } ⟨0, 0, 0, 0, 0⟩).2
      exact ih _ (by rw [f1, f2]; exact hc') (by rw [f1, f3]; exact hp')
    · obtain ⟨hc', hp'⟩ := asyncInner_polls env s.n s ⟨0, 0, 0, 0, 0⟩ hc hp
      obtain ⟨f1, f2, f3, _⟩ := asyncPushStep_frame
        (asyncInner env s.n s ⟨0, 0, 0, 0, 0⟩).1
        (asyncInner env s.n s ⟨0, 0, 0, 0, 0⟩).2
      exact ih _ (by rw [f1, f2]; exact hc') (by rw [f1, f3]; exact hp')

lemma asyncLoop_stop (env : Env) (fuel : Nat) :
    ∀ s : AsyncState, s.stop = none →
      (asyncLoop env fuel s).batches = s.batches + fuel ∨
      ((asyncLoop env fuel s).stop = some .ceiling ∧
        MAX_ITERATIONS ≤ (asyncLoop env fuel s).passed) ∨
      (∃ e, (asyncLoop env fuel s).stop = some (.deadlineHit e) ∧
        3 < (asyncLoop env fuel s).passed ∧ DEADLINE ≤ e) := by
  induction fuel with
  | zero => intro s _; left; simp [asyncLoop]
  | succ fuel ih =>
    intro s hs
    unfold asyncLoop
    split_ifs with h1 h2 h3
    · right; left; exact ⟨rfl, by simpa using h1⟩
    · right; right; exact ⟨env.clock s.reads, rfl, by simpa using h2, h3⟩
    · obtain ⟨f1, f2, f3, f4, f5, f6, f7, f8⟩ := asyncPushStep_frame
        (asyncInner env s.n { s with reads := s.reads + 1 } ⟨0, 0, 0, 0, 0⟩).1
        (asyncInner env s.n { s with reads := s.reads + 1 } ⟨0, 0, 0, 0, 0⟩).2
      obtain ⟨g1, g2, g3, g4, g5⟩ := asyncInner_frame env s.n
        { s with reads := s.reads + 1 } ⟨0, 0, 0, 0, 0⟩
      rcases ih _ (by rw [f6, g4]; exact hs) with h | h | h
      · left
        rw [h, f7, g3]
        simp only
        omega
      · right; left; exact h
      · right; right; exact h
    · obtain ⟨f1, f2, f3, f4, f5, f6, f7, f8⟩ := asyncPushStep_frame
        (asyncInner env s.n s ⟨0, 0, 0, 0, 0⟩).1
        (asyncInner env s.n s ⟨0, 0, 0, 0, 0⟩).2
      obtain ⟨g1, g2, g3, g4, g5⟩ := asyncInner_frame env s.n s ⟨0, 0, 0, 0, 0⟩
      rcases ih _ (by rw [f6, g4]; exact hs) with h | h | h
      · left
        rw [h, f7, g3]
        omega
      · right; left; exact h
      · right; right; exact h

/-- The final poll-average assignment of `async_iter` changes only the
`poll` field of the run state. -/
lemma asyncRun_frame (env : Env) (count : Nat) :
    (asyncRun env count).steps = (asyncLoop env count (asyncCalibState env)).steps ∧
    (asyncRun env count).passed = (asyncLoop env count (asyncCalibState env)).passed ∧
    (asyncRun env count).n = (asyncLoop env count (asyncCalibState env)).n ∧
    (asyncRun env count).calls = (asyncLoop env count (asyncCalibState env)).calls ∧
    (asyncRun env count).pollsList = (asyncLoop env count (asyncCalibState env)).pollsList ∧
    (asyncRun env count).batches = (asyncLoop env count (asyncCalibState env)).batches ∧
    (asyncRun env count).stop = (asyncLoop env count (asyncCalibState env)).stop := by
  unfold asyncRun
  simp only []
  split_ifs <;> simp

/-- Helper for reading `async_iter`'s final poll average. -/
lemma asyncRun_poll (env : Env) (count : Nat) :
    (asyncRun env count).poll =
      if (asyncLoop env count (asyncCalibState env)).pollsList = [] then
        (asyncLoop env count (asyncCalibState env)).poll
      else (asyncLoop env count (asyncCalibState env)).pollsList.sum /
        (asyncLoop env count (asyncCalibState env)).pollsList.length := by
  unfold asyncRun
  simp only []
  split_ifs <;> simp_all

/-- A degenerate environment: every clock reading and every per-call
observation is zero. -/
def trivEnv : Env :=
  { clock := fun _ => 0, changes := fun _ => ⟨0, 0, 0⟩
    times := fun _ => 0, polls := fun _ => 0 }

/-! ### C2: the calibration formula -/

/-- C2: the repetition count computed by calibration equals
`max(1, 1_000_000 / max(1, single))` in both paths, with the spec's two
examples; in the run models, `n` is this function of the measured
single-call duration and is never reassigned afterwards. -/
theorem calibration_repetition_count (env : Env) (count single : Nat) :
    calibrate single = max 1 (1000000 / max 1 single) ∧
    calibrate 500 = 2000 ∧
    calibrate 2000000 = 1 ∧
    (iterRun env count).n = calibrate (benchOnce env 1 DEADLINE 0 0 0).time ∧
    (asyncRun env count).n = calibrate (env.times 0) := by
  refine ⟨by simp [calibrate, Nat.max_comm], by decide, by decide, ?_, ?_⟩
  · unfold iterRun
    rw [iterLoop_n]
    rfl
  · rw [(asyncRun_frame env count).2.2.1, asyncLoop_n]
    rfl

/-! ### C3: sample-count and iteration-ceiling bounds -/

/-- C3: in both paths, a run from a freshly constructed `Bencher` with
target sample count `count` holds at most `count` `Step`s and its
cumulative counter `passed` stays at or below `MAX_ITERATIONS = 2000` —
stated both for the final state and for the state after any prefix of
`k ≤ count` outer iterations (`steps` and `passed` only grow, so these
prefix states are every intermediate point of the outer loop). -/
theorem sampling_loop_bounds (env : Env) (count k : Nat) (hk : k ≤ count) :
    ((iterLoop env k (iterCalibState env)).steps.length ≤ count ∧
      (iterLoop env k (iterCalibState env)).passed ≤ MAX_ITERATIONS) ∧
    ((asyncLoop env k (asyncCalibState env)).steps.length ≤ count ∧
      (asyncLoop env k (asyncCalibState env)).passed ≤ MAX_ITERATIONS) ∧
    ((iterRun env count).steps.length ≤ count ∧
      (iterRun env count).passed ≤ MAX_ITERATIONS) ∧
    ((asyncRun env count).steps.length ≤ count ∧
      (asyncRun env count).passed ≤ MAX_ITERATIONS) := by
  have hc0 : (iterCalibState env).passed = 0 := by rw [iterCalibState_eq]
  have hcs : (iterCalibState env).steps = [] := by rw [iterCalibState_eq]
  have hsync : ∀ m : Nat,
      (iterLoop env m (iterCalibState env)).steps.length ≤ m ∧
      (iterLoop env m (iterCalibState env)).passed ≤ MAX_ITERATIONS := by
    intro m
    obtain ⟨h1, h2⟩ := iterLoop_bounds env m (iterCalibState env)
      (by rw [hc0]; exact Nat.zero_le _)
    rw [hcs] at h2
    exact ⟨by simpa using h2, h1⟩
  have hasync : ∀ m : Nat,
      (asyncLoop env m (asyncCalibState env)).steps.length ≤ m ∧
      (asyncLoop env m (asyncCalibState env)).passed ≤ MAX_ITERATIONS := by
    intro m
    obtain ⟨h1, h2⟩ := asyncLoop_bounds env m (asyncCalibState env)
      (Nat.zero_le _)
    exact ⟨by simpa [asyncCalibState] using h2, h1⟩
  obtain ⟨hrs, hrp, -, -⟩ := asyncRun_frame env count
  refine ⟨⟨le_trans (hsync k).1 hk, (hsync k).2⟩,
    ⟨le_trans (hasync k).1 hk, (hasync k).2⟩,
    ⟨(hsync count).1, (hsync count).2⟩, ?_⟩
  rw [congrArg List.length hrs, hrp]
  exact ⟨(hasync count).1, (hasync count).2⟩

/-- C3 witness: a two-sample run in the all-zero environment, inspected
after its first outer iteration. -/
theorem sampling_loop_bounds_witness :
    1 ≤ 2 ∧
    (((iterLoop trivEnv 1 (iterCalibState trivEnv)).steps.length ≤ 2 ∧
      (iterLoop trivEnv 1 (iterCalibState trivEnv)).passed ≤ MAX_ITERATIONS) ∧
    ((asyncLoop trivEnv 1 (asyncCalibState trivEnv)).steps.length ≤ 2 ∧
      (asyncLoop trivEnv 1 (asyncCalibState trivEnv)).passed ≤ MAX_ITERATIONS) ∧
    ((iterRun trivEnv 2).steps.length ≤ 2 ∧
      (iterRun trivEnv 2).passed ≤ MAX_ITERATIONS) ∧
    ((asyncRun trivEnv 2).steps.length ≤ 2 ∧
      (asyncRun trivEnv 2).passed ≤ MAX_ITERATIONS)) :=
  ⟨by decide, sampling_loop_bounds trivEnv 2 1 (by decide)⟩

/-! ### C4: the outer-loop early-stop condition -/

/-- Environment driving the C4 counterexample: the calibration batch
measures `single = 250000` ns (clock readings `0` then `250000`), so
`n = 4`; the first sampling batch completes its 4 repetitions with no
deadline read (its in-loop checks see `self.passed + passed ≤ 3`), and
the next outer-loop check reads a clock value at the deadline. -/
def cex4Env : Env :=
  { clock := fun k => if k = 1 then 250000 else if k = 4 then 300000000 else 0
    changes := fun _ => ⟨0, 0, 0⟩
    times := fun _ => 0
    polls := fun _ => 0 }

/-- C4 counterexample: a synchronous run with target sample count 10 in
`cex4Env` stops after a single completed batch (4 repetitions), with the
ceiling unreached — so the loop was stopped by the deadline while only
1 ≤ 3 batches had completed, contradicting the claim that the deadline
alone never stops the loop with 3 or fewer completed batches.  The
code's grace condition counts completed repetitions (`self.passed > 3`),
not batches. -/
theorem outer_stop_not_batches_cex :
    (iterRun cex4Env 10).batches = 1 ∧
    (iterRun cex4Env 10).passed = 4 ∧
    ¬ ((iterRun cex4Env 10).batches = 10 ∨
       MAX_ITERATIONS ≤ (iterRun cex4Env 10).passed ∨
       3 < (iterRun cex4Env 10).batches) := by
  decide

/-- C4 amended: in both paths the outer sampling loop stops early
exactly when the cumulative completed-repetition counter `passed` has
reached `MAX_ITERATIONS = 2000`, or when `passed` exceeds 3 (not "more
than 3 batches") and the observed elapsed time has reached the 300 ms
deadline; the deadline alone never stops the loop while `passed ≤ 3`. -/
theorem outer_stop_condition (env : Env) (count : Nat) :
    ((iterRun env count).batches = count ∨
      ((iterRun env count).stop = some .ceiling ∧
        MAX_ITERATIONS ≤ (iterRun env count).passed) ∨
      (∃ e, (iterRun env count).stop = some (.deadlineHit e) ∧
        3 < (iterRun env count).passed ∧ DEADLINE ≤ e)) ∧
    ((asyncRun env count).batches = count ∨
      ((asyncRun env count).stop = some .ceiling ∧
        MAX_ITERATIONS ≤ (asyncRun env count).passed) ∨
      (∃ e, (asyncRun env count).stop = some (.deadlineHit e) ∧
        3 < (asyncRun env count).passed ∧ DEADLINE ≤ e)) := by
  constructor
  · have hcs : (iterCalibState env).stop = none := by rw [iterCalibState_eq]
    have hcb : (iterCalibState env).batches = 0 := by rw [iterCalibState_eq]
    rcases iterLoop_stop env count (iterCalibState env) hcs with h | h | h
    · left
      unfold iterRun
      rw [h, hcb, Nat.zero_add]
    · right; left; exact h
    · right; right; exact h
  · obtain ⟨-, hrp, -, -, -, hrb, hrst⟩ := asyncRun_frame env count
    rcases asyncLoop_stop env count (asyncCalibState env) rfl with h | h | h
    · left
      rw [hrb, h]
      simp [asyncCalibState]
    · right; left
      rw [hrst, hrp]
      exact h
    · right; right
      rw [hrst, hrp]
      exact h

/-! ### C5: the in-batch deadline check of `bench_once` -/

/-- Environment driving the C5 counterexample: every clock reading is
already at the deadline. -/
def cex5Env : Env :=
  { clock := fun _ => 300000000
    changes := fun _ => ⟨0, 0, 0⟩
    times := fun _ => 0
    polls := fun _ => 0 }

/-- C5 counterexample: a `bench_once` batch with `n = 4 < 10` entered
with a run-wide counter `self.passed = 5` and the deadline already
reached completes 0 repetitions — the in-batch grace condition is
`self.passed + passed > 3` over the cumulative counter, so it can break
before a single repetition of that batch has completed, contradicting
the claim that the batch breaks only once more than 3 repetitions
*within that batch* have completed. -/
theorem batch_break_cumulative_cex :
    (benchOnce cex5Env 4 DEADLINE 5 0 0).passed = 0 ∧
    ¬ ((benchOnce cex5Env 4 DEADLINE 5 0 0).passed = 4 ∨
       MAX_ITERATIONS ≤ 5 + (benchOnce cex5Env 4 DEADLINE 5 0 0).passed ∨
       3 < (benchOnce cex5Env 4 DEADLINE 5 0 0).passed) := by
  decide

/-- C5 amended: a `bench_once` batch either completes all `n`
repetitions, or breaks at the iteration ceiling, or — only when
`n < 10` — breaks on a deadline check once the *cumulative* counter
`self.passed + (in-batch) passed` exceeds 3 and the observed elapsed
time has reached the deadline.  Consequently when `n ≥ 10` no deadline
break can occur inside the batch: it completes `n` repetitions or stops
at the ceiling. -/
theorem batch_break_condition (env : Env)
    (n deadline selfPassed reads calls : Nat) :
    ((benchOnce env n deadline selfPassed reads calls).passed = n ∨
      ((benchOnce env n deadline selfPassed reads calls).stop =
          some .ceiling ∧
        MAX_ITERATIONS ≤ selfPassed +
          (benchOnce env n deadline selfPassed reads calls).passed) ∨
      (∃ e, (benchOnce env n deadline selfPassed reads calls).stop =
          some (.deadlineHit e) ∧ n < 10 ∧
        3 < selfPassed + (benchOnce env n deadline selfPassed reads calls).passed ∧
        deadline ≤ e)) ∧
    (10 ≤ n →
      (benchOnce env n deadline selfPassed reads calls).passed = n ∨
      ((benchOnce env n deadline selfPassed reads calls).stop =
          some .ceiling ∧
        MAX_ITERATIONS ≤ selfPassed +
          (benchOnce env n deadline selfPassed reads calls).passed)) := by
  have h := benchOnce_stop env n deadline selfPassed reads calls
  refine ⟨h, fun hn => ?_⟩
  rcases h with h | h | h
  · left; exact h
  · right; exact h
  · obtain ⟨e, -, hlt, -⟩ := h
    omega

/-- C5 amended, witness: a batch with `n = 12 ≥ 10` in the all-zero
environment completes all 12 repetitions. -/
theorem batch_break_condition_witness :
    10 ≤ 12 ∧
    ((benchOnce trivEnv 12 DEADLINE 0 0 0).passed = 12 ∨
      ((benchOnce trivEnv 12 DEADLINE 0 0 0).stop = some .ceiling ∧
        MAX_ITERATIONS ≤ 0 + (benchOnce trivEnv 12 DEADLINE 0 0 0).passed)) :=
  ⟨by decide, (batch_break_condition trivEnv 12 DEADLINE 0 0 0).2 (by decide)⟩

/-! ### C8: the reported poll average of an async run -/

/-- C8: at completion of an async run, if at least one instrumented
repetition completed (the calibration call at stream index 0 is not
instrumented), the reported `poll` equals the integer-division average
of the per-repetition poll counts — the poll counts of closure
invocations `1 .. passed` — over the number `passed` of instrumented
repetitions; if no instrumented repetition completed, `poll` stays 0. -/
theorem async_poll_average (env : Env) (count : Nat) :
    ((asyncRun env count).passed = 0 → (asyncRun env count).poll = 0) ∧
    ((asyncRun env count).passed ≠ 0 → (asyncRun env count).poll =
      ((List.range (asyncRun env count).passed).map
        (fun i => env.polls (i + 1))).sum / (asyncRun env count).passed) := by
  obtain ⟨-, hrp, -, -, -, -, -⟩ := asyncRun_frame env count
  have hpolls := asyncLoop_polls env count (asyncCalibState env) rfl rfl
  have hpoll := asyncRun_poll env count
  constructor
  · intro h0
    rw [hrp] at h0
    rw [hpoll, if_pos (by rw [hpolls.2, h0]; simp), asyncLoop_poll]
    rfl
  · intro hne
    rw [hrp] at hne
    have hne' : (asyncLoop env count (asyncCalibState env)).pollsList ≠ [] := by
      rw [hpolls.2]
      simpa [List.range_eq_nil] using hne
    rw [hpoll, if_neg hne', hpolls.2, hrp]
    simp

/-- Environment driving the C8 witness: every call takes 2 ms (so
`n = 1`) and the `k`-th closure invocation is polled `10 * k` times. -/
def w8Env : Env :=
  { clock := fun _ => 0
    changes := fun _ => ⟨0, 0, 0⟩
    times := fun _ => 2000000
    polls := fun k => 10 * k }

/-- C8 witness: a one-sample async run in `w8Env` completes one
instrumented repetition, so the reported `poll` is that repetition's
poll count; a zero-sample run completes none and reports `poll = 0`. -/
theorem async_poll_average_witness :
    ((asyncRun trivEnv 0).passed = 0 ∧ (asyncRun trivEnv 0).poll = 0) ∧
    ((asyncRun w8Env 1).passed ≠ 0 ∧
      (asyncRun w8Env 1).poll =
        ((List.range (asyncRun w8Env 1).passed).map
          (fun i => w8Env.polls (i + 1))).sum / (asyncRun w8Env 1).passed) :=
  ⟨⟨by decide, (async_poll_average trivEnv 0).1 (by decide)⟩,
   ⟨by decide, (async_poll_average w8Env 1).2 (by decide)⟩⟩

/-! ### C10: calibration contributes only `n` -/

/-- C10: in both paths the calibration invocation appends no `Step`,
leaves the cumulative counter `passed` at 0 and the poll state empty,
and determines only the repetition count `n` (from the measured
single-call duration); it does make one closure call, so over a whole
run the closure is invoked exactly `passed + 1` times — one more than
the counter reports. -/
theorem calibration_only_sets_n (env : Env) (count : Nat) :
    (iterCalibState env).steps = [] ∧
    (iterCalibState env).passed = 0 ∧
    (iterCalibState env).calls = 1 ∧
    (iterCalibState env).n = calibrate (env.clock 1 - env.clock 0) ∧
    (iterRun env count).calls = (iterRun env count).passed + 1 ∧
    (asyncCalibState env).steps = [] ∧
    (asyncCalibState env).passed = 0 ∧
    (asyncCalibState env).poll = 0 ∧
    (asyncCalibState env).pollsList = [] ∧
    (asyncCalibState env).calls = 1 ∧
    (asyncCalibState env).n = calibrate (env.times 0) ∧
    (asyncRun env count).calls = (asyncRun env count).passed + 1 := by
  refine ⟨by rw [iterCalibState_eq], by rw [iterCalibState_eq],
    by rw [iterCalibState_eq], by rw [iterCalibState_eq], ?_,
    rfl, rfl, rfl, rfl, rfl, rfl, ?_⟩
  · unfold iterRun
    exact iterLoop_calls env count (iterCalibState env)
      (by rw [iterCalibState_eq])
  · obtain ⟨-, hrp, -, hrc, -⟩ := asyncRun_frame env count
    rw [hrp, hrc]
    exact (asyncLoop_polls env count (asyncCalibState env) rfl rfl).1
